import Mathlib

/-!
Verification of the `python-ash` repository (an interactive shell for the
Ansible Automation Platform REST API) against its natural-language
specification.  Each Python function relevant to the frozen claims is
shallowly embedded as an executable Lean definition, translated directly
from the source:

* `src/ash/aap.py` — `API.retrieves_objects` (pagination engine),
  `BaseObject.init_vars` / `refresh`, the resource constructors
  (`Job.__init__`, `JobTemplate.__init__`, `Inventory.__init__`,
  `Project.__init__`, `Host.__init__`), `JobTemplate.get_asked_variables`,
  `Job.print_stdout`;
* `src/ash/ash.py` — `Ash.__cd_project`, `Ash.__cd_job_template`,
  `Ash.__switch_context`, `Ash._load_cache`, `Ash.__cmd_cache`;
* `src/ash/cache.py` — `Cache.clean_cache`, `Cache.insert_cache`.

HTTP traffic is modelled trace-style: the server is a queue (list) of the
responses it will give to the successive requests the code makes, which is
faithful because the embedded loops issue exactly one request per
iteration.
-/

/-! ## Pagination engine: `API.retrieves_objects` (src/ash/aap.py lines 46-84) -/

/-- Raw result items are opaque JSON records; their identity is all the
pagination claims depend on, so they are represented by `Nat` tags. -/
abbrev Item := Nat

/-- Outcome of one `API.get_request` call: `conn` is a connection-level
failure (`requests` raised, `get_request` returned `None`); `http` carries
the status code and the JSON body fields the pagination loop reads
(`results`, `next`, `count`). -/
inductive Resp where
  | conn : Resp
  | http (status : Nat) (results : List Item) (next : Option String) (count : Nat)
deriving DecidableEq

/-- Python truthiness of the `next` field: absent (`None`) and the empty
string are falsy, every other string is truthy. -/
def nextTruthy : Option String → Bool
  | none => false
  | some s => s ≠ ""

/-- Page size computation at the top of `retrieves_objects`:
`if not result_limit or result_limit > 100: page_size = 100 else: page_size = result_limit`. -/
def pageSize (result_limit : Nat) : Nat :=
  if result_limit = 0 ∨ result_limit > 100 then 100 else result_limit

/-- The per-page append loop of `retrieves_objects`:
`for item in response.json().get('results', []): if len(data) < result_limit: data.append(item)`. -/
def appendUpTo (limit : Nat) (data : List Item) : List Item → List Item
  | [] => data
  | i :: rest => appendUpTo limit (if data.length < limit then data ++ [i] else data) rest

/-- The `while response.json().get('next') and len(data) < result_limit`
loop of `retrieves_objects`.  `nxt` is the `next` field of the most recent
response; `queue` is the sequence of responses the server will give to the
subsequent `get_request` calls.  An exhausted queue behaves like a
connection failure (`get_request` returning `None`). -/
def fetchLoop (limit : Nat) (data : List Item) (nxt : Option String) : List Resp → Option (List Item)
  | [] =>
      if nextTruthy nxt ∧ data.length < limit then none else some data
  | r :: rest =>
      if nextTruthy nxt ∧ data.length < limit then
        match r with
        | .conn => none
        | .http status results next2 _ =>
            if status ≠ 200 then none
            else fetchLoop limit (appendUpTo limit data results) next2 rest
      else some data

/-- `API.retrieves_objects`: issue the first request, abort on failure or
non-200, seed `data` with the whole first page, replace a zero
`result_limit` by the first page's `count`, then run the page-following
loop.  Returns `none` where the Python returns `None`. -/
def retrievesObjects (result_limit : Nat) : List Resp → Option (List Item)
  | [] => none
  | .conn :: _ => none
  | .http status results next count :: rest =>
      if status ≠ 200 then none
      else
        fetchLoop (if result_limit = 0 then count else result_limit) results next rest

/-- Hypothesis that the server honoured the requested page size on the
first page (the first page is taken wholesale into `data`, so this is the
only page the code itself does not truncate). -/
def firstPageLe (queue : List Resp) (n : Nat) : Prop :=
  match queue with
  | .http _ results _ _ :: _ => results.length ≤ n
  | _ => True

instance (queue : List Resp) (n : Nat) : Decidable (firstPageLe queue n) := by
  unfold firstPageLe
  cases queue with
  | nil => exact inferInstance
  | cons r rest => cases r <;> exact inferInstance

lemma appendUpTo_length_le (limit : Nat) :
    ∀ (items data : List Item), data.length ≤ limit →
      (appendUpTo limit data items).length ≤ limit := by
  intro items
  induction items with
  | nil => intro data h; simpa [appendUpTo] using h
  | cons i rest ih =>
      intro data h
      by_cases hlt : data.length < limit
      · simpa [appendUpTo, hlt] using ih (data ++ [i]) (by simpa using hlt)
      · simpa [appendUpTo, hlt] using ih data h

lemma appendUpTo_eq_take (limit : Nat) :
    ∀ (items data : List Item), data.length ≤ limit →
      appendUpTo limit data items = data ++ items.take (limit - data.length) := by
  intro items
  induction items with
  | nil => intro data _; simp [appendUpTo]
  | cons i rest ih =>
      intro data h
      rcases lt_or_eq_of_le h with hlt | heq
      · have h1 : (data ++ [i]).length ≤ limit := by simpa using hlt
        have hsub : limit - data.length = (limit - (data.length + 1)) + 1 := by omega
        simp only [appendUpTo, hlt, if_true]
        rw [ih (data ++ [i]) h1, hsub]
        simp [List.take_succ_cons]
      · have hnlt : ¬ data.length < limit := by omega
        have hz : limit - data.length = 0 := by omega
        simp only [appendUpTo, hnlt, if_false]
        rw [ih data h, hz]
        simp

lemma fetchLoop_length_le (limit : Nat) :
    ∀ (queue : List Resp) (data : List Item) (nxt : Option String),
      data.length ≤ limit →
      ∀ res, fetchLoop limit data nxt queue = some res → res.length ≤ limit := by
  intro queue
  induction queue with
  | nil =>
      intro data nxt h res hres
      by_cases hc : nextTruthy nxt ∧ data.length < limit
      · simp [fetchLoop, hc] at hres
      · simp [fetchLoop, hc] at hres
        exact hres ▸ h
  | cons r rest ih =>
      intro data nxt h res hres
      by_cases hc : nextTruthy nxt ∧ data.length < limit
      · cases r with
        | conn => simp [fetchLoop, hc] at hres
        | http status results next2 count =>
            by_cases hs : status ≠ 200
            · simp [fetchLoop, hc, hs] at hres
            · simp only [fetchLoop, hc, if_true, hs, if_false] at hres
              exact ih _ _ (appendUpTo_length_le limit results data h) res hres
      · simp [fetchLoop, hc] at hres
        exact hres ▸ h

lemma fetchLoop_stop (limit : Nat) (data : List Item) (nxt : Option String)
    (queue : List Resp) (h : ¬ data.length < limit) :
    fetchLoop limit data nxt queue = some data := by
  cases queue with
  | nil => simp [fetchLoop, h]
  | cons r rest => simp [fetchLoop, h]

/-- A consistent paged serving of a collection: `mkPages total served chunks`
is the response queue of a server that still has to deliver `chunks`, has
already delivered `served` items, reports `count = total` on every page and
advertises a `next` link exactly while items remain to be delivered. -/
def mkPages (total : Nat) : Nat → List (List Item) → List Resp
  | _, [] => []
  | served, c :: cs =>
      .http 200 c (if served + c.length < total then some "next" else none) total
        :: mkPages total (served + c.length) cs


lemma fetchLoop_cons_ok (limit : Nat) (data : List Item) (nxt : Option String)
    (results : List Item) (next2 : Option String) (count : Nat) (rest : List Resp)
    (h1 : nextTruthy nxt = true) (h2 : data.length < limit) :
    fetchLoop limit data nxt (.http 200 results next2 count :: rest) =
      fetchLoop limit (appendUpTo limit data results) next2 rest := by
  simp [fetchLoop, h1, h2]

lemma fetchLoop_none_next (limit : Nat) (data : List Item) (queue : List Resp) :
    fetchLoop limit data none queue = some data := by
  cases queue with
  | nil => simp [fetchLoop, nextTruthy]
  | cons r rest => simp [fetchLoop, nextTruthy]

lemma fetchLoop_mkPages (total : Nat) :
    ∀ (chunks : List (List Item)) (served : Nat) (data : List Item),
      data.length = served →
      served + chunks.flatten.length = total →
      fetchLoop total data (if served < total then some "next" else none)
          (mkPages total served chunks) = some (data ++ chunks.flatten) := by
  intro chunks
  induction chunks with
  | nil =>
      intro served data hlen htot
      have hnext : ¬ served < total := by simp at htot; omega
      rw [if_neg hnext]
      simp [mkPages, fetchLoop_none_next]
  | cons c cs ih =>
      intro served data hlen htot
      have hjoin : (c :: cs).flatten = c ++ cs.flatten := by simp
      have hlens : (c :: cs).flatten.length = c.length + cs.flatten.length := by simp
      by_cases hlt : served < total
      · have htot2 : served + c.length + cs.flatten.length = total := by omega
        have happ : appendUpTo total data c = data ++ c := by
          rw [appendUpTo_eq_take total c data (by omega)]
          rw [List.take_of_length_le (by omega)]
        have hrec := ih (served + c.length) (data ++ c) (by simp [hlen]) (by omega)
        rw [if_pos hlt]
        have hm : mkPages total served (c :: cs) =
            .http 200 c (if served + c.length < total then some "next" else none) total
              :: mkPages total (served + c.length) cs := rfl
        rw [hm,
          fetchLoop_cons_ok total data (some "next") c
            (if served + c.length < total then some "next" else none) total
            (mkPages total (served + c.length) cs)
            (by simp [nextTruthy]) (by omega),
          happ, hrec, hjoin, List.append_assoc]
      · have hall : c.length = 0 ∧ cs.flatten.length = 0 := by omega
        have hjnil : (c :: cs).flatten = [] := by
          rw [hjoin, List.length_eq_zero.mp hall.1, List.length_eq_zero.mp hall.2]
          simp
        rw [if_neg hlt, hjnil]
        simp [mkPages, fetchLoop_none_next]

lemma pageSize_le (rl : Nat) (h : 0 < rl) : pageSize rl ≤ rl := by
  unfold pageSize
  split <;> omega

/-- C1: for every call to the pagination engine `retrieves_objects` with
`resultLimit > 0` (and a server honouring the requested page size on the
first page, which the code takes wholesale), the returned list has at most
`resultLimit` items; page-following stops exactly when the accumulated
count reaches `resultLimit`, returning the accumulated data without issuing
further requests even when a next link is advertised; and on every
subsequent page only the items up to the limit are appended, the rest of
the page being discarded. -/
theorem retrieves_objects_respects_result_limit (rl : Nat) (queue : List Resp)
    (hpos : 0 < rl) (hfirst : firstPageLe queue (pageSize rl)) :
    (∀ res, retrievesObjects rl queue = some res → res.length ≤ rl) ∧
    (∀ (data : List Item) (nxt : Option String) (rest : List Resp),
        data.length = rl → fetchLoop rl data nxt rest = some data) ∧
    (∀ (data items : List Item), data.length ≤ rl →
        appendUpTo rl data items = data ++ items.take (rl - data.length)) := by
  refine ⟨?_, ?_, ?_⟩
  · intro res hres
    cases queue with
    | nil => simp [retrievesObjects] at hres
    | cons r rest =>
        cases r with
        | conn => simp [retrievesObjects] at hres
        | http s results nxt cnt =>
            by_cases hs : s ≠ 200
            · simp [retrievesObjects, hs] at hres
            · have hrl0 : rl ≠ 0 := by omega
              simp only [retrievesObjects, hs, if_false] at hres
              rw [if_neg hrl0] at hres
              have hfl : results.length ≤ pageSize rl := hfirst
              exact fetchLoop_length_le rl rest results nxt
                (le_trans hfl (pageSize_le rl hpos)) res hres
  · intro data nxt rest h
    exact fetchLoop_stop rl data nxt rest (by omega)
  · intro data items h
    exact appendUpTo_eq_take rl items data h

/-- Witness for C1 at a concrete two-page server: with `resultLimit = 2`
the fetch returns the two first-page items and the bound holds. -/
theorem retrieves_objects_respects_result_limit_witness :
    (0 < 2 ∧ firstPageLe [Resp.http 200 [1, 2] (some "page2") 5,
        Resp.http 200 [3, 4, 5] none 5] (pageSize 2)) ∧
    retrievesObjects 2 [Resp.http 200 [1, 2] (some "page2") 5,
        Resp.http 200 [3, 4, 5] none 5] = some [1, 2] ∧
    ([1, 2] : List Item).length ≤ 2 :=
  ⟨⟨by decide, by decide⟩, by decide,
    (retrieves_objects_respects_result_limit 2
      [Resp.http 200 [1, 2] (some "page2") 5, Resp.http 200 [3, 4, 5] none 5]
      (by decide) (by decide)).1 [1, 2] (by decide)⟩

/-- C2: with `resultLimit = 0` the requested page size is 100, the first
page's `count` field becomes the effective limit, and against a consistent
paged server (`mkPages`: pages jointly deliver exactly `count` items, a
next link advertised exactly while items remain) the fetch follows the
next links and returns exactly the server-reported `count` items — the
whole collection. -/
theorem retrieves_objects_unbounded_returns_count (total : Nat)
    (chunks : List (List Item)) (hne : chunks ≠ [])
    (hlen : chunks.flatten.length = total) :
    pageSize 0 = 100 ∧
    retrievesObjects 0 (mkPages total 0 chunks) = some chunks.flatten ∧
    (retrievesObjects 0 (mkPages total 0 chunks)).map List.length = some total := by
  have hmain : retrievesObjects 0 (mkPages total 0 chunks) = some chunks.flatten := by
    cases chunks with
    | nil => exact absurd rfl hne
    | cons c cs =>
        have hm : mkPages total 0 (c :: cs) =
            .http 200 c (if 0 + c.length < total then some "next" else none) total
              :: mkPages total (0 + c.length) cs := rfl
        rw [hm]
        show fetchLoop (if 0 = 0 then total else 0) c
            (if 0 + c.length < total then some "next" else none)
            (mkPages total (0 + c.length) cs) = some (c :: cs).flatten
        rw [if_pos rfl]
        have hflat : (c :: cs).flatten = c ++ cs.flatten := by simp
        have := fetchLoop_mkPages total cs (0 + c.length) c (by omega)
          (by simp at hlen ⊢; omega)
        rw [this, hflat]
  exact ⟨by decide, hmain, by rw [hmain]; simp [hlen]⟩

/-- Witness for C2 at a concrete consistent three-item, two-page server. -/
theorem retrieves_objects_unbounded_returns_count_witness :
    (([[10, 11], [12]] : List (List Item)) ≠ [] ∧
      ([[10, 11], [12]] : List (List Item)).flatten.length = 3) ∧
    retrievesObjects 0 (mkPages 3 0 [[10, 11], [12]]) =
      some ([[10, 11], [12]] : List (List Item)).flatten :=
  ⟨⟨by decide, by decide⟩,
    (retrieves_objects_unbounded_returns_count 3 [[10, 11], [12]]
      (by decide) (by decide)).2.1⟩

/-- C9: a connection failure (`get_request` returning `None`) or any
non-200 response aborts the whole fetch with `None`: on the first page the
overall call returns `none`, and inside the page-following loop (at a point
where the loop issues a request) the failure discards all accumulated
items and returns `none` rather than a partial list. -/
theorem retrieves_objects_aborts_on_failure (rl s : Nat) (results data : List Item)
    (nxt nxt2 : Option String) (cnt limit : Nat) (rest rest2 : List Resp)
    (hs : s ≠ 200) (hnext : nextTruthy nxt2 = true) (hroom : data.length < limit) :
    retrievesObjects rl (.conn :: rest) = none ∧
    retrievesObjects rl (.http s results nxt cnt :: rest) = none ∧
    fetchLoop limit data nxt2 (.conn :: rest2) = none ∧
    fetchLoop limit data nxt2 (.http s results nxt cnt :: rest2) = none := by
  refine ⟨rfl, ?_, ?_, ?_⟩
  · simp [retrievesObjects, hs]
  · simp [fetchLoop, hnext, hroom]
  · simp [fetchLoop, hnext, hroom, hs]

/-- Witness for C9: a mid-fetch 503 with two items already accumulated
yields `none`, not the partial `[1, 2]`. -/
theorem retrieves_objects_aborts_on_failure_witness :
    (((503 : Nat) ≠ 200) ∧ nextTruthy (some "n") = true ∧
      ([1, 2] : List Item).length < 5) ∧
    retrievesObjects 10 [Resp.conn] = none ∧
    retrievesObjects 10 [Resp.http 503 [7] none 9] = none ∧
    fetchLoop 5 [1, 2] (some "n") [Resp.conn] = none ∧
    fetchLoop 5 [1, 2] (some "n") [Resp.http 503 [7] none 9] = none :=
  ⟨⟨by decide, by decide, by decide⟩,
    (retrieves_objects_aborts_on_failure 10 503 [7] [1, 2] none (some "n") 9 5 [] []
      (by decide) (by decide) (by decide)).1,
    (retrieves_objects_aborts_on_failure 10 503 [7] [1, 2] none (some "n") 9 5 [] []
      (by decide) (by decide) (by decide)).2.1,
    (retrieves_objects_aborts_on_failure 10 503 [7] [1, 2] none (some "n") 9 5 [] []
      (by decide) (by decide) (by decide)).2.2.1,
    (retrieves_objects_aborts_on_failure 10 503 [7] [1, 2] none (some "n") 9 5 [] []
      (by decide) (by decide) (by decide)).2.2.2⟩

/-! ## Job stdout following: `Job.print_stdout` (src/ash/aap.py lines 244-259) -/

/-- What one iteration of the follow loop observes from the server: the
job's `finished` flag just after `self.refresh()`, and the result of
`self.get_stdout(start_line=start_line)` (`none` models a failed fetch,
`some s` the `content` string). -/
structure Poll where
  finished : Bool
  chunk : Option String
deriving DecidableEq

/-- Python `len(s.splitlines())` for newline-delimited text: the number of
newline characters, plus one for a trailing fragment not ended by a
newline.  (`splitlines` also splits on other line boundaries; AAP stdout
content uses plain newlines.) -/
def splitlinesLen (s : String) : Nat :=
  if s = "" then 0
  else s.data.count '\n' + (if s.data.getLast? = some '\n' then 0 else 1)

/-- Observable state of the follow loop: the consumed-line offset
`start_line`, the chunks printed so far, and how many `time.sleep(5)`
calls have been made. -/
structure FollowState where
  startLine : Nat
  out : List String
  sleeps : Nat
deriving DecidableEq

/-- One iteration of the `while True` body of `print_stdout(follow=True)`:
refresh (observing `p.finished`), fetch stdout; if the chunk is truthy,
advance the offset by its line count, emit it, and break if the job is
finished; otherwise sleep and poll again.  Returns the new state and
whether the loop broke. -/
def followStep (st : FollowState) (p : Poll) : FollowState × Bool :=
  match p.chunk with
  | some s =>
      if s ≠ "" then
        let st1 : FollowState := ⟨st.startLine + splitlinesLen s, st.out ++ [s], st.sleeps⟩
        if p.finished then (st1, true)
        else (⟨st1.startLine, st1.out, st1.sleeps + 1⟩, false)
      else (⟨st.startLine, st.out, st.sleeps + 1⟩, false)
  | none => (⟨st.startLine, st.out, st.sleeps + 1⟩, false)

/-- The follow loop run against a finite trace of server observations.
`none` means the loop was still running when the trace ran out — i.e. the
code would keep polling beyond the supplied trace. -/
def printStdoutFollow : FollowState → List Poll → Option FollowState
  | _, [] => none
  | st, p :: rest =>
      match followStep st p with
      | (st1, true) => some st1
      | (st1, false) => printStdoutFollow st1 rest

/-- Initial state of `print_stdout(follow=True)`: `start_line = 0`. -/
def followInit : FollowState := ⟨0, [], 0⟩

/-- C3: the claim says the loop stops polling once the job's `finished`
flag is true; the code breaks only when `finished` is true *and* the chunk
just fetched was non-empty (`if stdout:` guards the `break`).  On a
finished job whose stdout fetch returns the empty chunk — e.g. all output
already consumed — every poll observes `finished = true` with content
`''`, yet the iteration never breaks (it just sleeps), so the loop never
terminates, however many polls are allowed. -/
theorem print_stdout_never_stops_on_finished_empty (n : Nat) (st : FollowState) :
    followStep st ⟨true, some ""⟩ = (⟨st.startLine, st.out, st.sleeps + 1⟩, false) ∧
    printStdoutFollow st (List.replicate n ⟨true, some ""⟩) = none := by
  constructor
  · rfl
  · induction n generalizing st with
    | zero => rfl
    | succ k ih =>
        show printStdoutFollow st (⟨true, some ""⟩ :: List.replicate k ⟨true, some ""⟩) = none
        rw [printStdoutFollow]
        exact ih ⟨st.startLine, st.out, st.sleeps + 1⟩

/-! ## Resource model: `BaseObject` and subclasses (src/ash/aap.py lines 127-242)

Python instance attributes are an ordered association list from attribute
name to value; `setattr` overwrites the first binding of the name or
appends a new one.  The non-JSON attribute values the claims touch are the
transport reference `self.api` (an opaque object, `Val.ref`).  `self.data`
is always reassigned to the whole fetched body at the end of `init_vars`,
so it is kept as a separate field holding that body. -/

/-- JSON-ish attribute values plus opaque Python object references. -/
inductive Val where
  | null
  | bool (b : Bool)
  | int (n : Int)
  | str (s : String)
  | ref (n : Nat)
deriving DecidableEq

/-- Python truthiness of a value (`if not self.scm_branch`). -/
def isFalsy : Val → Bool
  | .null => true
  | .bool b => !b
  | .int n => n == 0
  | .str s => s == ""
  | .ref _ => false

/-- Python `str()` as used inside f-strings like `f"jobs/{self.id}"`. -/
def valStr : Val → String
  | .null => "None"
  | .bool true => "True"
  | .bool false => "False"
  | .int n => toString n
  | .str s => s
  | .ref n => "<object " ++ toString n ++ ">"

/-- `setattr(self, k, v)`: overwrite the first binding of `k`, else append. -/
def setAttr : List (String × Val) → String → Val → List (String × Val)
  | [], k, v => [(k, v)]
  | (k0, v0) :: rest, k, v =>
      if k0 = k then (k, v) :: rest else (k0, v0) :: setAttr rest k v

/-- `getattr(self, k)`: first binding of `k`, `none` when the lookup would
raise `AttributeError`. -/
def alookup : List (String × Val) → String → Option Val
  | [], _ => none
  | (k0, v0) :: rest, k => if k0 = k then some v0 else alookup rest k

/-- A Python object as the claims observe it: its attribute namespace and
its `data` attribute (always the last body passed to `init_vars`). -/
structure PyObj where
  attrs : List (String × Val)
  data : List (String × Val)
deriving DecidableEq

/-- Attribute lookup on an object. -/
def getAttr (o : PyObj) (k : String) : Option Val := alookup o.attrs k

/-- The `for k, v in data.items(): setattr(self, k, v)` loop of
`init_vars`, acting on an attribute namespace. -/
def setAttrs (a : List (String × Val)) : List (String × Val) → List (String × Val)
  | [] => a
  | kv :: rest => setAttrs (setAttr a kv.1 kv.2) rest

/-- `BaseObject.init_vars(data)`: `setattr` every key of the body in
order, then `self.data = data`. -/
def initVars (o : PyObj) (body : List (String × Val)) : PyObj :=
  ⟨setAttrs o.attrs body, body⟩

/-- `BaseObject.__init__(api, data)`: bind `self.api`, then `init_vars`. -/
def baseInit (api : Val) (body : List (String × Val)) : PyObj :=
  initVars ⟨[("api", api)], []⟩ body

/-- `setattr` on a whole object. -/
def setObjAttr (o : PyObj) (k : String) (v : Val) : PyObj :=
  ⟨setAttr o.attrs k v, o.data⟩

/-- `BaseObject.refresh()` given the response to `get_request(self.uri)`:
on `None` or non-200 do nothing, otherwise `init_vars(response.json())`. -/
def refreshWith (o : PyObj) (resp : Option (Nat × List (String × Val))) : PyObj :=
  match resp with
  | none => o
  | some (status, body) => if status ≠ 200 then o else initVars o body

/-- `Job.__init__`: base init, then default `scm_branch` to `"main"` when
falsy (an absent `scm_branch` raises `AttributeError`, modelled as `none`),
then derive `uri` and `absolute_url`.  `baseUrl` stands for
`self.api.base_url`. -/
def mkJob (api : Val) (baseUrl : String) (body : List (String × Val)) : Option PyObj :=
  let o := baseInit api body
  match getAttr o "scm_branch" with
  | none => none
  | some sb =>
      let o1 := if isFalsy sb then setObjAttr o "scm_branch" (.str "main") else o
      match getAttr o1 "id" with
      | none => none
      | some idv =>
          let o2 := setObjAttr o1 "uri" (.str ("jobs/" ++ valStr idv))
          some (setObjAttr o2 "absolute_url"
            (.str (baseUrl ++ "execution/jobs/playbook/" ++ valStr idv ++ "/output")))

/-- `JobTemplate.__init__`: base init then derive `uri` and `absolute_url`. -/
def mkJobTemplate (api : Val) (baseUrl : String) (body : List (String × Val)) : Option PyObj :=
  let o := baseInit api body
  match getAttr o "id" with
  | none => none
  | some idv =>
      let o1 := setObjAttr o "uri" (.str ("job_templates/" ++ valStr idv))
      some (setObjAttr o1 "absolute_url"
        (.str (baseUrl ++ "execution/templates/job-template/" ++ valStr idv)))

/-- `Inventory.__init__`: base init then derive `uri` and `absolute_url`. -/
def mkInventory (api : Val) (baseUrl : String) (body : List (String × Val)) : Option PyObj :=
  let o := baseInit api body
  match getAttr o "id" with
  | none => none
  | some idv =>
      let o1 := setObjAttr o "uri" (.str ("inventories/" ++ valStr idv))
      some (setObjAttr o1 "absolute_url"
        (.str (baseUrl ++ "execution/infrastructure/inventories/inventory/" ++ valStr idv ++ "/details")))

/-- `Project.__init__`: base init then derive `uri` and `absolute_url`. -/
def mkProject (api : Val) (baseUrl : String) (body : List (String × Val)) : Option PyObj :=
  let o := baseInit api body
  match getAttr o "id" with
  | none => none
  | some idv =>
      let o1 := setObjAttr o "uri" (.str ("projects/" ++ valStr idv))
      some (setObjAttr o1 "absolute_url"
        (.str (baseUrl ++ "execution/projects/" ++ valStr idv ++ "/details")))

/-- `Host.__init__`: base init then derive `uri` and `absolute_url` from
the parent inventory id and the host id. -/
def mkHost (api : Val) (baseUrl : String) (body : List (String × Val)) : Option PyObj :=
  let o := baseInit api body
  match getAttr o "inventory", getAttr o "id" with
  | some invv, some idv =>
      let o1 := setObjAttr o "uri"
        (.str ("inventory/" ++ valStr invv ++ "/hosts/" ++ valStr idv))
      some (setObjAttr o1 "absolute_url"
        (.str (baseUrl ++ "execution/infrastructure/inventories/inventory/" ++ valStr invv
          ++ "/hosts/" ++ valStr idv ++ "/details")))
  | _, _ => none

lemma alookup_setAttr_self (a : List (String × Val)) (k : String) (v : Val) :
    alookup (setAttr a k v) k = some v := by
  induction a with
  | nil => simp [setAttr, alookup]
  | cons kv rest ih =>
      obtain ⟨k0, v0⟩ := kv
      by_cases h : k0 = k
      · subst h; simp [setAttr, alookup]
      · simp [setAttr, alookup, h, ih]

lemma alookup_setAttr_ne (a : List (String × Val)) (k : String) (v : Val)
    (k' : String) (h : k' ≠ k) :
    alookup (setAttr a k v) k' = alookup a k' := by
  induction a with
  | nil => simp [setAttr, alookup, Ne.symm h]
  | cons kv rest ih =>
      obtain ⟨k0, v0⟩ := kv
      by_cases h0 : k0 = k
      · subst h0
        simp [setAttr, alookup, Ne.symm h]
      · simp [setAttr, alookup, h0, ih]

lemma setAttr_id (a : List (String × Val)) (k : String) (v : Val)
    (h : alookup a k = some v) : setAttr a k v = a := by
  induction a with
  | nil => simp [alookup] at h
  | cons kv rest ih =>
      obtain ⟨k0, v0⟩ := kv
      by_cases h0 : k0 = k
      · subst h0
        simp [alookup] at h
        simp [setAttr, h]
      · simp [alookup, h0] at h
        simp [setAttr, h0, ih h]

lemma setAttrs_id (body : List (String × Val)) :
    ∀ a, (∀ kv ∈ body, alookup a kv.1 = some kv.2) → setAttrs a body = a := by
  induction body with
  | nil => intro a _; rfl
  | cons kv rest ih =>
      intro a h
      have h1 : setAttr a kv.1 kv.2 = a := setAttr_id a kv.1 kv.2 (h kv (by simp))
      show setAttrs (setAttr a kv.1 kv.2) rest = a
      rw [h1]
      exact ih a (fun kv2 h2 => h kv2 (by simp [h2]))

lemma alookup_setAttrs_not_mem (body : List (String × Val)) :
    ∀ (a : List (String × Val)) (k : String), k ∉ body.map Prod.fst →
      alookup (setAttrs a body) k = alookup a k := by
  induction body with
  | nil => intro a k _; rfl
  | cons kv rest ih =>
      intro a k h
      rw [List.map_cons, List.mem_cons] at h
      have h1 : k ≠ kv.1 := fun he => h (Or.inl he)
      have h2 : k ∉ rest.map Prod.fst := fun hm => h (Or.inr hm)
      show alookup (setAttrs (setAttr a kv.1 kv.2) rest) k = alookup a k
      rw [ih (setAttr a kv.1 kv.2) k h2, alookup_setAttr_ne a kv.1 kv.2 k h1]

lemma alookup_setAttrs_mem (body : List (String × Val)) :
    ∀ (a : List (String × Val)) (k : String) (v : Val),
      (body.map Prod.fst).Nodup → (k, v) ∈ body →
      alookup (setAttrs a body) k = some v := by
  induction body with
  | nil => intro a k v _ hm; simp at hm
  | cons kv rest ih =>
      intro a k v hnd hm
      rw [List.map_cons, List.nodup_cons] at hnd
      rcases List.mem_cons.mp hm with heq | hrest
      · have hkv : kv = (k, v) := heq.symm
        subst hkv
        show alookup (setAttrs (setAttr a k v) rest) k = some v
        rw [alookup_setAttrs_not_mem rest (setAttr a k v) k hnd.1,
          alookup_setAttr_self]
      · exact ih (setAttr a kv.1 kv.2) k v hnd.2 hrest

lemma getAttr_setObjAttr_ne (o : PyObj) (k : String) (v : Val) (k' : String)
    (h : k' ≠ k) : getAttr (setObjAttr o k v) k' = getAttr o k' :=
  alookup_setAttr_ne o.attrs k v k' h

lemma getAttr_setObjAttr_self (o : PyObj) (k : String) (v : Val) :
    getAttr (setObjAttr o k v) k = some v :=
  alookup_setAttr_self o.attrs k v

lemma refresh_noop_of (o : PyObj) (body : List (String × Val))
    (hattrs : ∀ kv ∈ body, getAttr o kv.1 = some kv.2) (hdata : o.data = body) :
    refreshWith o (some (200, body)) = o := by
  show (if (200 : Nat) ≠ 200 then o else initVars o body) = o
  rw [if_neg (by omega)]
  obtain ⟨attrs, data⟩ := o
  show (⟨setAttrs attrs body, body⟩ : PyObj) = ⟨attrs, data⟩
  rw [setAttrs_id body attrs (fun kv h => hattrs kv h)]
  simp at hdata
  rw [hdata]

lemma refresh_noop_of_derived (api : Val) (body : List (String × Val)) (o : PyObj)
    (hnodup : (body.map Prod.fst).Nodup)
    (huri : "uri" ∉ body.map Prod.fst)
    (habs : "absolute_url" ∉ body.map Prod.fst)
    (ho : ∃ u a2, o = setObjAttr (setObjAttr (baseInit api body) "uri" u) "absolute_url" a2) :
    refreshWith o (some (200, body)) = o := by
  obtain ⟨u, a2, rfl⟩ := ho
  apply refresh_noop_of
  · intro kv hkv
    have hk_uri : kv.1 ≠ "uri" := fun h => huri (h ▸ List.mem_map_of_mem Prod.fst hkv)
    have hk_abs : kv.1 ≠ "absolute_url" :=
      fun h => habs (h ▸ List.mem_map_of_mem Prod.fst hkv)
    rw [getAttr_setObjAttr_ne _ _ _ _ hk_abs, getAttr_setObjAttr_ne _ _ _ _ hk_uri]
    exact alookup_setAttrs_mem body [("api", api)] kv.1 kv.2 hnodup hkv
  · rfl

/-- C5 amended: `refresh()` immediately after construction from the same
payload is a no-op on all observable attributes (the whole attribute
namespace and the raw `data` mapping) for every resource type, provided
the payload does not reuse the derived attribute names `uri` and
`absolute_url`; the amendment the counterexample forces concerns Jobs
alone — a Job round-trips only when the payload's `scm_branch` value is
truthy, because a falsy `scm_branch` is defaulted to `"main"` by the
constructor but reverted to the payload value by `refresh()`.  The other
four resource kinds round-trip unconditionally, whatever the payload's
`scm_branch`. -/
theorem refresh_after_construct_noop (api : Val) (bu : String)
    (body : List (String × Val))
    (hnodup : (body.map Prod.fst).Nodup)
    (huri : "uri" ∉ body.map Prod.fst)
    (habs : "absolute_url" ∉ body.map Prod.fst) :
    (∀ o, mkInventory api bu body = some o → refreshWith o (some (200, body)) = o) ∧
    (∀ o, mkProject api bu body = some o → refreshWith o (some (200, body)) = o) ∧
    (∀ o, mkJobTemplate api bu body = some o → refreshWith o (some (200, body)) = o) ∧
    (∀ o, mkHost api bu body = some o → refreshWith o (some (200, body)) = o) ∧
    (∀ o, mkJob api bu body = some o →
      (∀ v, getAttr (baseInit api body) "scm_branch" = some v → isFalsy v = false) →
      refreshWith o (some (200, body)) = o) := by
  refine ⟨?_, ?_, ?_, ?_, ?_⟩
  · intro o ho
    simp only [mkInventory] at ho
    split at ho
    · exact absurd ho (by simp)
    · exact refresh_noop_of_derived api body o hnodup huri habs
        ⟨_, _, (Option.some_inj.mp ho).symm⟩
  · intro o ho
    simp only [mkProject] at ho
    split at ho
    · exact absurd ho (by simp)
    · exact refresh_noop_of_derived api body o hnodup huri habs
        ⟨_, _, (Option.some_inj.mp ho).symm⟩
  · intro o ho
    simp only [mkJobTemplate] at ho
    split at ho
    · exact absurd ho (by simp)
    · exact refresh_noop_of_derived api body o hnodup huri habs
        ⟨_, _, (Option.some_inj.mp ho).symm⟩
  · intro o ho
    simp only [mkHost] at ho
    split at ho
    · exact refresh_noop_of_derived api body o hnodup huri habs
        ⟨_, _, (Option.some_inj.mp ho).symm⟩
    · exact absurd ho (by simp)
  · intro o ho hsb
    simp only [mkJob] at ho
    split at ho
    · exact absurd ho (by simp)
    case _ sb hsb_eq =>
      rw [hsb sb hsb_eq, if_neg (by simp)] at ho
      split at ho
      · exact absurd ho (by simp)
      · exact refresh_noop_of_derived api body o hnodup huri habs
          ⟨_, _, (Option.some_inj.mp ho).symm⟩

/-- Job payload whose `scm_branch` is present but empty. -/
def c5Body : List (String × Val) :=
  [("id", .int 7), ("name", .str "demo"), ("scm_branch", .str "")]

/-- The Job built from `c5Body` (the constructor succeeds on it). -/
def c5Job : PyObj := (mkJob (.ref 0) "https://aap/" c5Body).getD ⟨[], []⟩

/-- Counterexample to C5 as stated: for a Job constructed from a payload
with an empty `scm_branch`, `refresh()` with that very payload is *not* a
no-op — the constructor defaulted `scm_branch` to `"main"` but `refresh`
only reruns `init_vars`, reverting it to `""`. -/
theorem refresh_after_construct_counterexample :
    mkJob (.ref 0) "https://aap/" c5Body = some c5Job ∧
    getAttr c5Job "scm_branch" = some (.str "main") ∧
    getAttr (refreshWith c5Job (some (200, c5Body))) "scm_branch" = some (.str "") ∧
    refreshWith c5Job (some (200, c5Body)) ≠ c5Job := by
  refine ⟨rfl, rfl, rfl, ?_⟩
  decide

/-- Job payload with a truthy `scm_branch`, for the C5 witness. -/
def c5BodyW : List (String × Val) :=
  [("id", .int 5), ("name", .str "x"), ("scm_branch", .str "dev")]

/-- The Job built from `c5BodyW`. -/
def c5JobW : PyObj := (mkJob (.ref 0) "https://aap/" c5BodyW).getD ⟨[], []⟩

/-- Project payload with an *empty* `scm_branch` (the usual AAP default),
for the C5 witness: non-Job resources round-trip regardless of it. -/
def c5BodyP : List (String × Val) :=
  [("id", .int 6), ("name", .str "proj"), ("scm_branch", .str ""),
   ("scm_url", .str "https://git/r.git")]

/-- The Project built from `c5BodyP`. -/
def c5ProjW : PyObj := (mkProject (.ref 0) "https://aap/" c5BodyP).getD ⟨[], []⟩

/-- Witness for the amended C5: a Job payload with truthy `scm_branch`
round-trips, and a Project payload with an empty `scm_branch` round-trips
unconditionally. -/
theorem refresh_after_construct_noop_witness :
    (mkJob (.ref 0) "https://aap/" c5BodyW = some c5JobW ∧
      refreshWith c5JobW (some (200, c5BodyW)) = c5JobW) ∧
    (mkProject (.ref 0) "https://aap/" c5BodyP = some c5ProjW ∧
      refreshWith c5ProjW (some (200, c5BodyP)) = c5ProjW) :=
  ⟨⟨rfl,
    (refresh_after_construct_noop (.ref 0) "https://aap/" c5BodyW
      (by decide) (by decide) (by decide)).2.2.2.2 c5JobW rfl
      (fun v hv => by rw [← Option.some.inj hv]; decide)⟩,
   ⟨rfl,
    (refresh_after_construct_noop (.ref 0) "https://aap/" c5BodyP
      (by decide) (by decide) (by decide)).2.1 c5ProjW rfl⟩⟩

/-- Counterexample to C6 as stated: a job payload that *omits*
`scm_branch` does not produce a Job with `scm_branch = "main"` — the
constructor's `if not self.scm_branch` raises `AttributeError` and no Job
is produced at all (modelled as `none`). -/
theorem job_scm_branch_omitted_counterexample :
    mkJob (.ref 0) "https://aap/" [("id", .int 1)] = none := rfl

/-- C6 amended: for every job payload in which `scm_branch` is present but
falsy (empty string, `null`, `False`, `0`) and which carries an `id`, the
constructed Job has `scm_branch = "main"`; a payload omitting `scm_branch`
altogether instead makes the constructor raise `AttributeError`
(`mkJob = none`, see the counterexample). -/
theorem job_scm_branch_default_when_falsy (api : Val) (bu : String)
    (body : List (String × Val)) (v idv : Val)
    (hsb : getAttr (baseInit api body) "scm_branch" = some v)
    (hfalsy : isFalsy v = true)
    (hid : getAttr (baseInit api body) "id" = some idv) :
    (mkJob api bu body).isSome = true ∧
    ∀ o, mkJob api bu body = some o → getAttr o "scm_branch" = some (.str "main") := by
  have hid1 : getAttr (setObjAttr (baseInit api body) "scm_branch" (.str "main")) "id"
      = some idv := by
    rw [getAttr_setObjAttr_ne _ _ _ _ (by decide)]
    exact hid
  have heq : mkJob api bu body =
      some (setObjAttr (setObjAttr (setObjAttr (baseInit api body) "scm_branch" (.str "main"))
        "uri" (.str ("jobs/" ++ valStr idv)))
        "absolute_url" (.str (bu ++ "execution/jobs/playbook/" ++ valStr idv ++ "/output"))) := by
    simp only [mkJob, hsb, hfalsy, if_true, hid1]
  refine ⟨by rw [heq]; rfl, ?_⟩
  intro o ho
  rw [heq] at ho
  rw [← Option.some_inj.mp ho]
  rw [getAttr_setObjAttr_ne _ _ _ _ (by decide), getAttr_setObjAttr_ne _ _ _ _ (by decide)]
  exact getAttr_setObjAttr_self _ _ _

/-- Witness for the amended C6: payload with `scm_branch: null` yields a
Job whose `scm_branch` is `"main"`. -/
theorem job_scm_branch_default_when_falsy_witness :
    (mkJob (.ref 0) "https://aap/" [("id", .int 1), ("scm_branch", Val.null)]).isSome = true ∧
    getAttr ((mkJob (.ref 0) "https://aap/"
      [("id", .int 1), ("scm_branch", Val.null)]).getD ⟨[], []⟩) "scm_branch"
      = some (.str "main") :=
  ⟨(job_scm_branch_default_when_falsy (.ref 0) "https://aap/"
      [("id", .int 1), ("scm_branch", Val.null)] Val.null (Val.int 1)
      rfl rfl rfl).1,
    (job_scm_branch_default_when_falsy (.ref 0) "https://aap/"
      [("id", .int 1), ("scm_branch", Val.null)] Val.null (Val.int 1)
      rfl rfl rfl).2 _ rfl⟩

/-- C10 amended: `refresh()` changes only the attributes named by the keys
of a successful (200) response body, plus the raw `data` mapping; in
particular the derived `uri`, the derived `absolute_url` and the held
`api` transport reference are unchanged *provided the body does not itself
contain keys of those names* (the amendment: `init_vars` `setattr`s every
body key, so a body containing e.g. a `uri` key does overwrite the derived
`uri` — see the counterexample).  Failed refreshes (`None` or non-200)
change nothing. -/
theorem refresh_frame (o : PyObj) (resp : Option (Nat × List (String × Val))) :
    (∀ k, (∀ body, resp = some (200, body) → k ∉ body.map Prod.fst) →
        getAttr (refreshWith o resp) k = getAttr o k) ∧
    (∀ body, resp = some (200, body) → (refreshWith o resp).data = body) ∧
    (∀ status body, resp = some (status, body) → status ≠ 200 →
        refreshWith o resp = o) ∧
    (resp = none → refreshWith o resp = o) := by
  refine ⟨?_, ?_, ?_, ?_⟩
  · intro k hk
    match resp with
    | none => rfl
    | some (status, body) =>
        by_cases hst : status = 200
        · subst hst
          show getAttr (if (200 : Nat) ≠ 200 then o else initVars o body) k = getAttr o k
          rw [if_neg (by omega)]
          exact alookup_setAttrs_not_mem body o.attrs k (hk body rfl)
        · show getAttr (if status ≠ 200 then o else initVars o body) k = getAttr o k
          rw [if_pos hst]
  · intro body hb
    rw [hb]
    show (if (200 : Nat) ≠ 200 then o else initVars o body).data = body
    rw [if_neg (by omega)]
    rfl
  · intro status body hb hst
    rw [hb]
    show (if status ≠ 200 then o else initVars o body) = o
    rw [if_pos hst]
  · intro hb
    rw [hb]
    rfl

/-- Job-template payload for the C10 counterexample and witness. -/
def c10Body : List (String × Val) := [("id", .int 3), ("name", .str "t")]

/-- The JobTemplate built from `c10Body`. -/
def c10JT : PyObj := (mkJobTemplate (.ref 0) "https://aap/" c10Body).getD ⟨[], []⟩

/-- Counterexample to C10 as stated ("whatever response body the server
returns"): a 200 body containing a `uri` key makes `refresh()` overwrite
the derived `uri` attribute. -/
theorem refresh_frame_counterexample :
    mkJobTemplate (.ref 0) "https://aap/" c10Body = some c10JT ∧
    getAttr c10JT "uri" = some (.str "job_templates/3") ∧
    getAttr (refreshWith c10JT (some (200, [("uri", .str "evil")]))) "uri"
      = some (.str "evil") ∧
    Val.str "job_templates/3" ≠ Val.str "evil" := by
  refine ⟨rfl, rfl, rfl, ?_⟩
  decide

/-- Witness for the amended C10 on a concrete JobTemplate and a body
without derived-name keys: `uri`, `absolute_url` and `api` survive the
refresh and `data` becomes the new body. -/
theorem refresh_frame_witness :
    getAttr (refreshWith c10JT (some (200, [("status", Val.str "ok")]))) "uri"
      = getAttr c10JT "uri" ∧
    getAttr (refreshWith c10JT (some (200, [("status", Val.str "ok")]))) "absolute_url"
      = getAttr c10JT "absolute_url" ∧
    getAttr (refreshWith c10JT (some (200, [("status", Val.str "ok")]))) "api"
      = getAttr c10JT "api" ∧
    (refreshWith c10JT (some (200, [("status", Val.str "ok")]))).data
      = [("status", Val.str "ok")] :=
  ⟨(refresh_frame c10JT (some (200, [("status", Val.str "ok")]))).1 "uri"
      (fun body h => by cases h; decide),
    (refresh_frame c10JT (some (200, [("status", Val.str "ok")]))).1 "absolute_url"
      (fun body h => by cases h; decide),
    (refresh_frame c10JT (some (200, [("status", Val.str "ok")]))).1 "api"
      (fun body h => by cases h; decide),
    (refresh_frame c10JT (some (200, [("status", Val.str "ok")]))).2.1 _ rfl⟩

/-! ## `JobTemplate.get_asked_variables` (src/ash/aap.py lines 164-169) -/

/-- Boolean list prefix test (character-wise), used to model Python
substring primitives executably. -/
def isPrefList : List Char → List Char → Bool
  | [], _ => true
  | _ :: _, [] => false
  | a :: as, b :: bs => a == b && isPrefList as bs

/-- Python `s.replace(pat, '')`, scanning left to right and deleting each
(non-overlapping) occurrence of `pat`.  The `skip` counter consumes the
remaining characters of a just-matched occurrence. -/
def pyReplaceAux (pat : List Char) : List Char → Nat → List Char
  | [], _ => []
  | _ :: s, skip + 1 => pyReplaceAux pat s skip
  | c :: s, 0 =>
      if !pat.isEmpty && isPrefList pat (c :: s) then pyReplaceAux pat s (pat.length - 1)
      else c :: pyReplaceAux pat s 0

/-- Python `s.replace(pat, '')` on character lists. -/
def pyReplace (s pat : List Char) : List Char := pyReplaceAux pat s 0

/-- Python `s.startswith(pre)`. -/
def strStartsWith (s pre : String) : Bool := isPrefList pre.data s.data

/-- The `'_on_launch'` literal of `get_asked_variables`. -/
def onLaunchChars : List Char := "_on_launch".data

/-- Lexicographic code-point order on strings (Python's `sorted` order for
ASCII identifiers), executable in the kernel. -/
def charListLe : List Char → List Char → Bool
  | [], _ => true
  | _ :: _, [] => false
  | a :: as, b :: bs =>
      if a.toNat < b.toNat then true
      else if b.toNat < a.toNat then false
      else charListLe as bs

/-- Insertion into a sorted list of strings. -/
def insertSorted (a : String) : List String → List String
  | [] => [a]
  | b :: rest => if charListLe a.data b.data then a :: b :: rest else b :: insertSorted a rest

/-- Insertion sort on strings. -/
def sortStrings (l : List String) : List String := l.foldr insertSorted []

/-- The class-level names `dir()` reports on a `JobTemplate` instance
besides the instance attributes: inherited and own methods and the usual
dunder members.  None of them starts with `ask_` and none is bound to the
value `True`. -/
def jtClassDir : List String :=
  ["__class__", "__delattr__", "__dict__", "__dir__", "__doc__", "__eq__",
   "__format__", "__ge__", "__getattribute__", "__gt__", "__hash__",
   "__init__", "__init_subclass__", "__le__", "__lt__", "__module__",
   "__ne__", "__new__", "__reduce__", "__reduce_ex__", "__repr__",
   "__setattr__", "__sizeof__", "__str__", "__subclasshook__",
   "__weakref__", "get_asked_variables", "get_survey_spec", "init_vars",
   "jobs", "launch", "log_error", "refresh"]

/-- `dir(self)` for a JobTemplate: sorted union of instance attribute
names (including `data`, kept separately in the model) and class names. -/
def dirList (o : PyObj) : List String :=
  sortStrings ((o.attrs.map Prod.fst ++ ["data"] ++ jtClassDir).dedup)

/-- The strip `attr[4:].replace('_on_launch', '')` applied by
`get_asked_variables` to each selected flag name. -/
def stripAskVar (a : String) : String := ⟨pyReplace (a.data.drop 4) onLaunchChars⟩

/-- `JobTemplate.get_asked_variables()`: walk `dir(self)`, keep the
attributes starting with `ask_` whose value `is True` (class members are
methods, never `True`; in the model they have no entry in `attrs`), and
strip each kept name. -/
def getAskedVariables (o : PyObj) : List String :=
  ((dirList o).filter
    (fun a => strStartsWith a "ask_" && decide (getAttr o a = some (Val.bool true)))).map
    stripAskVar

/-- Boolean test that `pat` is a suffix of `s`. -/
def strEndsWithL (s pat : List Char) : Bool :=
  decide (pat.length ≤ s.length) && isPrefList pat (s.drop (s.length - pat.length))

/-- `pat` occurs in `s` exactly once, as its final suffix: used as the
well-formedness condition on `ask_<var>_on_launch` flag names. -/
def onlyFinalOccurrence (pat s : List Char) : Bool :=
  strEndsWithL s pat &&
  (List.range (s.length - pat.length)).all (fun i => !isPrefList pat (s.drop i))

/-- Modelled from the spec: the claim's description of
`getAskedVariables` — the names obtained by stripping the `ask_` prefix
and the `_on_launch` suffix from exactly those `ask_*_on_launch` flags
whose value is `True`. -/
def askedVariablesSpec (o : PyObj) : List String :=
  ((dirList o).filter
    (fun a => strStartsWith a "ask_" && strEndsWithL (a.data.drop 4) onLaunchChars &&
      decide (getAttr o a = some (Val.bool true)))).map
    (fun a => ⟨(a.data.drop 4).take ((a.data.drop 4).length - onLaunchChars.length)⟩)

lemma isPrefList_self : ∀ l : List Char, isPrefList l l = true := by
  intro l
  induction l with
  | nil => rfl
  | cons a as ih => simp [isPrefList, ih]

lemma pyReplaceAux_skip_all (pat : List Char) :
    ∀ (s : List Char) (skip : Nat), s.length ≤ skip → pyReplaceAux pat s skip = [] := by
  intro s
  induction s with
  | nil => intro skip _; rfl
  | cons c s ih =>
      intro skip h
      match skip with
      | 0 => simp at h
      | k + 1 => exact ih k (by simpa using h)

lemma isPrefList_iff (pat : List Char) :
    ∀ l, isPrefList pat l = true ↔ ∃ t, l = pat ++ t := by
  induction pat with
  | nil => intro l; simp [isPrefList]
  | cons a as ih =>
      intro l
      cases l with
      | nil => simp [isPrefList]
      | cons b bs =>
          simp only [isPrefList, Bool.and_eq_true, beq_iff_eq, ih bs,
            List.cons_append, List.cons.injEq]
          constructor
          · rintro ⟨rfl, t, rfl⟩; exact ⟨t, rfl, rfl⟩
          · rintro ⟨t, rfl, rfl⟩; exact ⟨rfl, t, rfl⟩

lemma pyReplace_clean (pat : List Char) (hne : pat ≠ []) :
    ∀ x : List Char,
      (∀ i, i < x.length → isPrefList pat ((x ++ pat).drop i) = false) →
      pyReplaceAux pat (x ++ pat) 0 = x := by
  intro x
  induction x with
  | nil =>
      intro _
      match pat, hne with
      | p :: pr, _ =>
          show pyReplaceAux (p :: pr) ((p :: pr) : List Char) 0 = []
          simp only [pyReplaceAux, List.isEmpty_cons, Bool.not_false, isPrefList_self,
            Bool.and_self, if_true, Bool.and_true]
          exact pyReplaceAux_skip_all (p :: pr) pr (p :: pr).length.pred (by simp)
  | cons c x' ih =>
      intro h
      have hno0 : isPrefList pat (c :: (x' ++ pat)) = false := by
        have := h 0 (by simp)
        simpa using this
      show pyReplaceAux pat (c :: (x' ++ pat)) 0 = c :: x'
      rw [pyReplaceAux, hno0]
      simp only [Bool.and_false]
      rw [if_neg (by simp)]
      rw [ih (fun i hi => by simpa using h (i + 1) (by simpa using hi))]

lemma pyReplace_only_final (pat s : List Char) (hne : pat ≠ [])
    (h : onlyFinalOccurrence pat s = true) :
    pyReplaceAux pat s 0 = s.take (s.length - pat.length) := by
  unfold onlyFinalOccurrence strEndsWithL at h
  rw [Bool.and_eq_true, Bool.and_eq_true] at h
  obtain ⟨⟨hle, hpre⟩, hall⟩ := h
  have hle' : pat.length ≤ s.length := of_decide_eq_true hle
  obtain ⟨t, ht⟩ := (isPrefList_iff pat (s.drop (s.length - pat.length))).mp hpre
  have hlt : t = [] := by
    have h1 : (s.drop (s.length - pat.length)).length = pat.length := by
      rw [List.length_drop]; omega
    rw [ht, List.length_append] at h1
    exact List.eq_nil_of_length_eq_zero (by omega)
  subst hlt
  rw [List.append_nil] at ht
  have hs : s = s.take (s.length - pat.length) ++ pat := by
    conv_lhs => rw [← List.take_append_drop (s.length - pat.length) s]
    rw [ht]
  have hxlen : (s.take (s.length - pat.length)).length = s.length - pat.length := by
    rw [List.length_take]; omega
  have hno : ∀ i, i < (s.take (s.length - pat.length)).length →
      isPrefList pat ((s.take (s.length - pat.length) ++ pat).drop i) = false := by
    intro i hi
    rw [← hs]
    have := List.all_eq_true.mp hall i (List.mem_range.mpr (by omega))
    simpa using this
  conv_lhs => rw [hs]
  exact pyReplace_clean pat hne (s.take (s.length - pat.length)) hno

lemma filter_map_congr_on (p1 p2 : String → Bool) (f1 f2 : String → String) :
    ∀ l : List String, (∀ a ∈ l, p1 a = p2 a ∧ (p1 a = true → f1 a = f2 a)) →
      (l.filter p1).map f1 = (l.filter p2).map f2 := by
  intro l
  induction l with
  | nil => intro _; rfl
  | cons a rest ih =>
      intro h
      have ha := h a (by simp)
      have hrest := ih (fun b hb => h b (by simp [hb]))
      cases hp : p1 a with
      | true =>
          have hp2 : p2 a = true := ha.1 ▸ hp
          simp only [List.filter_cons, hp, hp2, if_true, List.map_cons, hrest,
            ha.2 hp]
      | false =>
          have hp2 : p2 a = false := ha.1 ▸ hp
          simp only [List.filter_cons, hp, hp2, Bool.false_eq_true, if_false, hrest]

/-- C8: `get_asked_variables()` returns exactly the variable names obtained
by stripping the `ask_` prefix and the `_on_launch` suffix from the
`ask_*_on_launch` flags whose value is `True` (`askedVariablesSpec`, the
claim's description), for every JobTemplate whose `ask_`-prefixed
attribute names are well formed — `_on_launch` occurs in the rest of the
name exactly once, as its final suffix (true of every actual AAP flag). -/
theorem get_asked_variables_strips_on_launch_flags (o : PyObj)
    (hwf : ∀ a ∈ dirList o, strStartsWith a "ask_" = true →
      onlyFinalOccurrence onLaunchChars (a.data.drop 4) = true) :
    getAskedVariables o = askedVariablesSpec o := by
  unfold getAskedVariables askedVariablesSpec
  apply filter_map_congr_on
  intro a ha
  cases hstart : strStartsWith a "ask_" with
  | true =>
      have honly := hwf a ha hstart
      have hend : strEndsWithL (a.data.drop 4) onLaunchChars = true := by
        have h2 := honly
        unfold onlyFinalOccurrence at h2
        rw [Bool.and_eq_true] at h2
        exact h2.1
      refine ⟨by simp [hend], fun _ => ?_⟩
      show stripAskVar a = ⟨(a.data.drop 4).take ((a.data.drop 4).length - onLaunchChars.length)⟩
      unfold stripAskVar pyReplace
      exact congrArg String.mk
        (pyReplace_only_final onLaunchChars (a.data.drop 4) (by decide) honly)
  | false =>
      refine ⟨by simp, fun hcontra => ?_⟩
      simp at hcontra

/-- JobTemplate payload realizing the claim's example flags. -/
def c8Body : List (String × Val) :=
  [("id", .int 9), ("name", .str "jt"),
   ("ask_limit_on_launch", .bool true), ("ask_tags_on_launch", .bool false)]

/-- The JobTemplate built from `c8Body`. -/
def c8JT : PyObj := (mkJobTemplate (.ref 0) "https://aap/" c8Body).getD ⟨[], []⟩

/-- Witness for C8 on the claim's example: flags
`{ask_limit_on_launch: true, ask_tags_on_launch: false}` give `["limit"]`. -/
theorem get_asked_variables_strips_on_launch_flags_witness :
    (∀ a ∈ dirList c8JT, strStartsWith a "ask_" = true →
      onlyFinalOccurrence onLaunchChars (a.data.drop 4) = true) ∧
    getAskedVariables c8JT = askedVariablesSpec c8JT ∧
    getAskedVariables c8JT = ["limit"] :=
  ⟨by decide, get_asked_variables_strips_on_launch_flags c8JT (by decide), by decide⟩

/-! ## Cache command: `Ash.__cmd_cache` / `Ash._load_cache` (src/ash/ash.py
lines 342-345, 500-527) and `Cache` (src/ash/cache.py) -/

/-- A cached/fetched resource as the cache layer sees it. -/
structure CObj where
  id : Nat
  name : String
deriving DecidableEq

/-- The three persistent per-type tables of `cache.db`. -/
structure CacheState where
  inventories : List CObj
  projects : List CObj
  job_templates : List CObj
deriving DecidableEq

/-- The remote collections `AAP.get_inventories` / `get_projects` /
`get_job_templates` would return. -/
structure Server2 where
  inventories : List CObj
  projects : List CObj
  job_templates : List CObj

/-- Python runtime errors the embedding tracks. -/
inductive PyErr where
  | typeError
deriving DecidableEq

/-- Parameters (beside `self`) accepted by `Cache.insert_cache` — its
signature is `def insert_cache(self, table_name, data)` (cache.py line 28). -/
def insertCacheParamCount : Nat := 2

/-- Arguments (beside `self`) that `Ash._load_cache` passes —
`self.cache.insert_cache(object_type, obj.id, obj)` (ash.py line 512). -/
def insertCacheCallArgCount : Nat := 3

/-- Calling a Python method: if the argument count does not match the
parameter count, the call raises `TypeError` before the body runs. -/
def callInsertCache (args : Nat) : Except PyErr Unit :=
  if args = insertCacheParamCount then .ok () else .error .typeError

/-- `Cache.clean_cache()`: `DELETE FROM` each of the three tables. -/
def cleanCache (_c : CacheState) : CacheState := ⟨[], [], []⟩

/-- `Cache.load_cache(table_name)`: all rows of that table. -/
def loadCacheTable (c : CacheState) (t : String) : List CObj :=
  if t = "inventories" then c.inventories
  else if t = "projects" then c.projects
  else c.job_templates

/-- What the intended `INSERT INTO <table>` would do. -/
def insertTable (c : CacheState) (t : String) (o : CObj) : CacheState :=
  if t = "inventories" then ⟨c.inventories ++ [o], c.projects, c.job_templates⟩
  else if t = "projects" then ⟨c.inventories, c.projects ++ [o], c.job_templates⟩
  else ⟨c.inventories, c.projects, c.job_templates ++ [o]⟩

/-- The fetch `getattr(self.aap, f'get_{object_type}')()`. -/
def fetchObjects (srv : Server2) (t : String) : List CObj :=
  if t = "inventories" then srv.inventories
  else if t = "projects" then srv.projects
  else srv.job_templates

/-- The `for obj in objects: self.cache.insert_cache(object_type, obj.id, obj)`
loop of `_load_cache`: each iteration calls `insert_cache` with three
arguments; a raised `TypeError` propagates immediately. -/
def insertLoop (c : CacheState) (t : String) : List CObj → Except PyErr CacheState
  | [] => .ok c
  | o :: rest =>
      match callInsertCache insertCacheCallArgCount with
      | .error e => .error e
      | .ok _ => insertLoop (insertTable c t o) t rest

/-- `Ash._load_cache(object_type)`: return cached rows if any; otherwise
fetch, return `[]` on an empty/failed fetch, else insert every fetched
object and return the collection. -/
def loadCacheOp (srv : Server2) (c : CacheState) (t : String) :
    Except PyErr (List CObj × CacheState) :=
  if loadCacheTable c t ≠ [] then .ok (loadCacheTable c t, c)
  else if fetchObjects srv t = [] then .ok ([], c)
  else
    match insertLoop c t (fetchObjects srv t) with
    | .error e => .error e
    | .ok c2 => .ok (fetchObjects srv t, c2)

/-- The in-memory collections and id/name indices `_load_all_caches`
(re)builds. -/
structure MemIndices where
  inventories : List CObj
  inventories_by_id : List (Nat × CObj)
  inventories_by_name : List (String × CObj)
  projects : List CObj
  projects_by_id : List (Nat × CObj)
  projects_by_name : List (String × CObj)
  job_templates : List CObj
  job_templates_by_id : List (Nat × CObj)
  job_templates_by_name : List (String × CObj)
deriving DecidableEq

/-- `Ash._load_all_caches`: load each cacheable type in order, building the
id and name indices; an exception from any `_load_cache` propagates. -/
def loadAllCaches (srv : Server2) (c : CacheState) :
    Except PyErr (MemIndices × CacheState) :=
  match loadCacheOp srv c "inventories" with
  | .error e => .error e
  | .ok (invs, c1) =>
      match loadCacheOp srv c1 "projects" with
      | .error e => .error e
      | .ok (projs, c2) =>
          match loadCacheOp srv c2 "job_templates" with
          | .error e => .error e
          | .ok (jts, c3) =>
              .ok (⟨invs, invs.map (fun o => (o.id, o)), invs.map (fun o => (o.name, o)),
                    projs, projs.map (fun o => (o.id, o)), projs.map (fun o => (o.name, o)),
                    jts, jts.map (fun o => (o.id, o)), jts.map (fun o => (o.name, o))⟩, c3)

/-- `Ash.__cmd_cache`: `self.cache.clean_cache()` then
`self._load_all_caches()`. -/
def cmdCache (srv : Server2) (c : CacheState) : Except PyErr (MemIndices × CacheState) :=
  loadAllCaches srv (cleanCache c)

lemma insertLoop_error (c : CacheState) (t : String) (o : CObj) (rest : List CObj) :
    insertLoop c t (o :: rest) = .error .typeError := rfl

/-- C4: the `cache` command does wipe the three tables, but the claimed
repopulation never happens — `_load_cache` calls
`insert_cache(object_type, obj.id, obj)` with three arguments while
`Cache.insert_cache(self, table_name, data)` accepts two, so the first
inserted object raises `TypeError` and the whole command aborts before any
index is rebuilt (the code contradicts its own call sites and the comment
at ash.py lines 336-339). -/
theorem cmd_cache_type_error (srv : Server2) (c : CacheState)
    (h : fetchObjects srv "inventories" ≠ []) :
    insertCacheCallArgCount ≠ insertCacheParamCount ∧
    cleanCache c = ⟨[], [], []⟩ ∧
    cmdCache srv c = .error .typeError := by
  refine ⟨by decide, rfl, ?_⟩
  unfold cmdCache loadAllCaches loadCacheOp
  have h1 : loadCacheTable (cleanCache c) "inventories" = [] := rfl
  rw [h1]
  simp only [ne_eq, not_true_eq_false, if_false, h, if_neg h]
  match hf : fetchObjects srv "inventories" with
  | [] => exact absurd hf h
  | o :: rest => rw [insertLoop_error]

/-- Witness for C4: a server with one inventory makes the `cache` command
abort with `TypeError` right after wiping the tables. -/
theorem cmd_cache_type_error_witness :
    fetchObjects ⟨[⟨1, "inv"⟩], [], []⟩ "inventories" ≠ [] ∧
    cmdCache ⟨[⟨1, "inv"⟩], [], []⟩ ⟨[⟨9, "stale"⟩], [], []⟩ = .error .typeError :=
  ⟨by decide,
    (cmd_cache_type_error ⟨[⟨1, "inv"⟩], [], []⟩ ⟨[⟨9, "stale"⟩], [], []⟩
      (by decide)).2.2⟩

/-! ## Context switching: `Ash.__cd_project` / `Ash.__cd_job_template`
(src/ash/ash.py lines 260-274, 309-333) -/

/-- A cached object as the cd lookup sees it (id and name). -/
structure NamedObj where
  id : Nat
  name : String
deriving DecidableEq

/-- Python `identifier.lower()` (ASCII case folding). -/
def strLower (s : String) : String := ⟨s.data.map Char.toLower⟩

/-- Python substring test `pat in hay` on character lists. -/
def containsSub (pat : List Char) : List Char → Bool
  | [] => pat.isEmpty
  | c :: t => isPrefList pat (c :: t) || containsSub pat t

/-- Python `identifier.isdigit()`: non-empty and all digits. -/
def isDigitStr (s : String) : Bool := !s.data.isEmpty && s.data.all Char.isDigit

/-- Python `int(identifier)` for a digit string. -/
def strToNat (s : String) : Nat :=
  s.data.foldl (fun n c => n * 10 + (c.toNat - 48)) 0

/-- Dictionary lookup in a `{id: obj}` index. -/
def nlookup : List (Nat × NamedObj) → Nat → Option NamedObj
  | [], _ => none
  | (k, o) :: rest, n => if k = n then some o else nlookup rest n

/-- Outcome of a cd lookup. -/
inductive CdResult where
  | selected (p : NamedObj)
  | notFound
  | ambiguous (ms : List NamedObj)
deriving DecidableEq

/-- The substring matches of `__cd_project` / `__cd_job_template`:
`[obj for name, obj in by_name.items() if identifier.lower() in name.lower()]`. -/
def substrMatches (identifier : String) (byName : List (String × NamedObj)) : List NamedObj :=
  (byName.filter (fun kv => containsSub (strLower identifier).data (strLower kv.1).data)).map
    Prod.snd

/-- `Ash.__cd_project` lookup: by id when the identifier is numeric;
otherwise a unique substring match selects, several substring matches fall
back to the first exact case-insensitive name match, else the matches are
reported as ambiguous; no match is an error. -/
def cdProjectLookup (identifier : String) (byId : List (Nat × NamedObj))
    (byName : List (String × NamedObj)) : CdResult :=
  if isDigitStr identifier then
    match nlookup byId (strToNat identifier) with
    | some p => .selected p
    | none => .notFound
  else
    match substrMatches identifier byName with
    | [p] => .selected p
    | [] => .notFound
    | p0 :: p1 :: rest =>
        match (p0 :: p1 :: rest).find? (fun p => strLower identifier == strLower p.name) with
        | some p => .selected p
        | none => .ambiguous (p0 :: p1 :: rest)

/-- `Ash.__cd_job_template` lookup: by id when numeric, else only a unique
substring match selects; anything else reports "not found". -/
def cdJobTemplateLookup (identifier : String) (byId : List (Nat × NamedObj))
    (byName : List (String × NamedObj)) : CdResult :=
  if isDigitStr identifier then
    match nlookup byId (strToNat identifier) with
    | some p => .selected p
    | none => .notFound
  else
    match substrMatches identifier byName with
    | [p] => .selected p
    | _ => .notFound

/-- `ROOT_COMMANDS` of src/ash/commands.py. -/
def ROOT_COMMANDS : List String := ["cd", "ls", "cache", "exit"]

/-- `JT_COMMANDS` of src/ash/commands.py. -/
def JT_COMMANDS : List String := ["launch", "refresh", "info", "set", "jobs", "sync"]

/-- `PROJECT_COMMANDS` of src/ash/commands.py. -/
def PROJECT_COMMANDS : List String := ["info", "refresh", "sync"]

/-- The dispatcher state the cd commands mutate: current context, its type
and the active command set. -/
structure ShellState where
  context : Option NamedObj
  contextType : Option String
  commands : List String
deriving DecidableEq

/-- `Ash.__get_commands_for_context`. -/
def commandsForContext (t : String) : List String :=
  if t = "job_templates" then JT_COMMANDS ++ ROOT_COMMANDS
  else if t = "projects" then PROJECT_COMMANDS ++ ROOT_COMMANDS
  else ROOT_COMMANDS

/-- `Ash.__switch_context(context, context_type)`. -/
def switchContext (_st : ShellState) (obj : NamedObj) (t : String) : ShellState :=
  ⟨some obj, some t, commandsForContext t⟩

/-- `Ash.__cd_project` effect on the dispatcher state: switch on a
successful lookup, otherwise report and leave the state unchanged. -/
def applyCdProject (st : ShellState) (identifier : String)
    (byId : List (Nat × NamedObj)) (byName : List (String × NamedObj)) : ShellState :=
  match cdProjectLookup identifier byId byName with
  | .selected p => switchContext st p "projects"
  | _ => st

/-- `Ash.__cd_job_template` effect on the dispatcher state. -/
def applyCdJobTemplate (st : ShellState) (identifier : String)
    (byId : List (Nat × NamedObj)) (byName : List (String × NamedObj)) : ShellState :=
  match cdJobTemplateLookup identifier byId byName with
  | .selected p => switchContext st p "job_templates"
  | _ => st

/-- Counterexample to C7 as stated: with two cached projects named `"API"`
and `"api"`, `cd project api` finds two substring matches *and two* exact
case-insensitive matches — not exactly one — yet the code still selects
(the first exact match) instead of reporting ambiguity. -/
theorem cd_project_exact_retry_counterexample :
    cdProjectLookup "api" [] [("API", ⟨1, "API"⟩), ("api", ⟨2, "api"⟩)]
      = .selected ⟨1, "API"⟩ ∧
    (substrMatches "api" [("API", ⟨1, "API"⟩), ("api", ⟨2, "api"⟩)]).length = 2 ∧
    ((substrMatches "api" [("API", ⟨1, "API"⟩), ("api", ⟨2, "api"⟩)]).filter
      (fun p => strLower "api" == strLower p.name)).length = 2 := by
  refine ⟨?_, ?_, ?_⟩ <;> decide

/-- C7 amended: for a non-numeric identifier, the job-template lookup
selects iff the case-insensitive substring match against the name index
yields exactly one match; the project lookup selects iff there is exactly
one substring match or, among several, the exact case-insensitive name
retry finds a match — the *first* such match being taken, even when more
than one name is case-insensitively equal to the identifier.  In every
non-selecting outcome (zero matches, or multiple matches not resolved by
the retry) the context, its type and the active command set stay
unchanged. -/
theorem cd_selected_characterization (st : ShellState) (identifier : String)
    (byIdP byIdJ : List (Nat × NamedObj)) (byNameP byNameJ : List (String × NamedObj))
    (hnum : isDigitStr identifier = false) :
    (∀ p, cdProjectLookup identifier byIdP byNameP = .selected p ↔
        substrMatches identifier byNameP = [p] ∨
        (1 < (substrMatches identifier byNameP).length ∧
          (substrMatches identifier byNameP).find?
            (fun q => strLower identifier == strLower q.name) = some p)) ∧
    ((∀ p, cdProjectLookup identifier byIdP byNameP ≠ .selected p) →
        applyCdProject st identifier byIdP byNameP = st) ∧
    (∀ p, cdJobTemplateLookup identifier byIdJ byNameJ = .selected p ↔
        substrMatches identifier byNameJ = [p]) ∧
    ((∀ p, cdJobTemplateLookup identifier byIdJ byNameJ ≠ .selected p) →
        applyCdJobTemplate st identifier byIdJ byNameJ = st) ∧
    (∀ p, cdProjectLookup identifier byIdP byNameP = .selected p →
        applyCdProject st identifier byIdP byNameP = switchContext st p "projects") ∧
    (∀ p, cdJobTemplateLookup identifier byIdJ byNameJ = .selected p →
        applyCdJobTemplate st identifier byIdJ byNameJ
          = switchContext st p "job_templates") := by
  have hnum' : ¬ (isDigitStr identifier = true) := by rw [hnum]; simp
  refine ⟨?_, ?_, ?_, ?_, ?_, ?_⟩
  · intro p
    rw [cdProjectLookup, if_neg hnum']
    match hm : substrMatches identifier byNameP with
    | [] =>
        refine iff_of_false (by simp) ?_
        rintro (habs | ⟨hlen, _⟩)
        · simp at habs
        · simp at hlen
    | [q] =>
        show CdResult.selected q = CdResult.selected p ↔ _
        constructor
        · intro h
          injection h with h1
          exact Or.inl (by rw [h1])
        · rintro (habs | ⟨hlen, _⟩)
          · injection habs with h1 _
            rw [h1]
          · simp at hlen
    | q0 :: q1 :: rest =>
        show (match List.find? (fun q => strLower identifier == strLower q.name)
            (q0 :: q1 :: rest) with
          | some q => CdResult.selected q
          | none => CdResult.ambiguous (q0 :: q1 :: rest)) = CdResult.selected p ↔ _
        match hf : List.find? (fun q => strLower identifier == strLower q.name)
            (q0 :: q1 :: rest) with
        | some q =>
            rw [hf]
            show CdResult.selected q = CdResult.selected p ↔ _
            constructor
            · intro h
              injection h with h1
              exact Or.inr ⟨by simp, by rw [h1]⟩
            · rintro (habs | ⟨_, hfind⟩)
              · simp at habs
              · injection hfind with h1
                rw [h1]
        | none =>
            rw [hf]
            refine iff_of_false (by simp) ?_
            rintro (habs | ⟨_, hfind⟩)
            · simp at habs
            · simp at hfind
  · intro hne
    rw [applyCdProject]
    match hc : cdProjectLookup identifier byIdP byNameP with
    | .selected p => exact absurd hc (hne p)
    | .notFound => rfl
    | .ambiguous ms => rfl
  · intro p
    rw [cdJobTemplateLookup, if_neg hnum']
    match hm : substrMatches identifier byNameJ with
    | [] =>
        refine iff_of_false (by simp) ?_
        intro habs
        simp at habs
    | [q] =>
        show CdResult.selected q = CdResult.selected p ↔ _
        constructor
        · intro h
          injection h with h1
          rw [h1]
        · intro habs
          injection habs with h1 _
          rw [h1]
    | q0 :: q1 :: rest =>
        refine iff_of_false (by simp) ?_
        intro habs
        simp at habs
  · intro hne
    rw [applyCdJobTemplate]
    match hc : cdJobTemplateLookup identifier byIdJ byNameJ with
    | .selected p => exact absurd hc (hne p)
    | .notFound => rfl
    | .ambiguous ms => rfl
  · intro p hp
    rw [applyCdProject, hp]
  · intro p hp
    rw [applyCdJobTemplate, hp]

/-- Name index of the spec's ambiguity example: projects `api-core` and
`api-edge`. -/
def c7Idx : List (String × NamedObj) :=
  [("api-core", ⟨1, "api-core"⟩), ("api-edge", ⟨2, "api-edge"⟩)]

/-- A root-context dispatcher state. -/
def c7St : ShellState := ⟨none, none, ROOT_COMMANDS⟩

/-- Witness for the amended C7 on the spec's example: `cd project api`
against `api-core`/`api-edge` reports ambiguity and leaves the state
unchanged. -/
theorem cd_selected_characterization_witness :
    isDigitStr "api" = false ∧
    cdProjectLookup "api" [] c7Idx = .ambiguous [⟨1, "api-core"⟩, ⟨2, "api-edge"⟩] ∧
    applyCdProject c7St "api" [] c7Idx = c7St := by
  have happ := (cd_selected_characterization c7St "api" [] [] c7Idx [] (by decide)).2.1
  refine ⟨by decide, by decide, happ ?_⟩
  intro p h
  rw [show cdProjectLookup "api" [] c7Idx
      = CdResult.ambiguous [⟨1, "api-core"⟩, ⟨2, "api-edge"⟩] from rfl] at h
  exact absurd h (by simp)
